import Mathlib

/-!
Verification development for the transfer session coordinator of a nearby-share
desktop client. The definitions below are a shallow embedding of the Rust
sources (`src/utils.rs`, `src/window.rs`, `src/widgets/receive_transfer.rs`,
`src/widgets/recipient_card.rs`, `src/objects/send_transfer.rs`): `usize`
counters become `Nat`, `time::Instant` becomes a rational timestamp in seconds,
`f64` arithmetic is carried out exactly over `ℚ` with the IEEE special cases
(infinities, NaN, the saturating `as u32` cast) modelled explicitly, and code
that panics is modelled with `Option`.
-/

namespace Packet

/-- Capacity of the per-second delta history (`STEPS_TRACK_COUNT` in `src/utils.rs`). -/
def STEPS_TRACK_COUNT : Nat := 5

/-- Shallow embedding of `DataTransferEta` from `src/utils.rs`. The `VecDeque` history
`transferred_last_few_secs` is modelled as a list whose head is the front of the deque,
so `push_front` is `::` and `pop_back` drops the last element. Byte counters (`usize`)
are `Nat`; the `time::Instant` anchor `last_sec` is a rational timestamp in seconds. -/
structure DataTransferEta where
  total_len : Nat
  total_transferred : Nat
  transferred_this_sec : Nat
  transferred_last_few_secs : List Nat
  last_sec : Option ℚ
  seconds_elapsed : Nat
  deriving Repr, DecidableEq

namespace DataTransferEta

/-- Embedding of `DataTransferEta::new`: the given total length, every other field zeroed
(the `Default` derive gives an empty history and an unset anchor). -/
def new (len : Nat) : DataTransferEta :=
  { total_len := len
    total_transferred := 0
    transferred_this_sec := 0
    transferred_last_few_secs := []
    last_sec := none
    seconds_elapsed := 0 }

/-- Embedding of `DataTransferEta::step_with`. The `usize` subtraction
`total_transferred - self.total_transferred` panics on underflow in the source; that case is
modelled by `none`. `current_time` stands for the `time::Instant::now()` call, and the
`elapsed.as_secs_f64() >= 1.0` test becomes `1 ≤ current_time - start`. -/
def step_with (s : DataTransferEta) (total_transferred : Nat) (current_time : ℚ) :
    Option DataTransferEta :=
  if total_transferred < s.total_transferred then
    none
  else
    let len := total_transferred - s.total_transferred
    let s :=
      { s with
        transferred_this_sec := s.transferred_this_sec + len
        total_transferred := total_transferred }
    match s.last_sec with
    | none => some { s with last_sec := some current_time }
    | some start =>
        let elapsed := current_time - start
        if 1 ≤ elapsed then
          let hist :=
            if s.transferred_last_few_secs.length = STEPS_TRACK_COUNT then
              s.transferred_last_few_secs.dropLast
            else
              s.transferred_last_few_secs
          some
            { s with
              seconds_elapsed := s.seconds_elapsed + 1
              last_sec := some current_time
              transferred_last_few_secs := s.transferred_this_sec :: hist
              transferred_this_sec := 0 }
        else
          some s

/-- Embedding of `DataTransferEta::prepare_for_new_transfer`: resets every counter, the
history and the anchor, optionally overwriting `total_len`. -/
def prepare_for_new_transfer (s : DataTransferEta) (total_len : Option Nat) :
    DataTransferEta :=
  { total_len := total_len.getD s.total_len
    total_transferred := 0
    transferred_this_sec := 0
    transferred_last_few_secs := []
    last_sec := none
    seconds_elapsed := 0 }

end DataTransferEta

/-- Value of the `f64` division `remaining / speed` in `get_estimate_string`. The operands
are exact rationals in this model, so the quotient is either an exact rational or one of the
IEEE special values produced by a zero divisor. -/
inductive F64Eta where
  | nan
  | posInf
  | negInf
  | val (q : ℚ)
  deriving Repr, DecidableEq

/-- IEEE-754 division of exact rational operands: a zero divisor yields an infinity matching
the sign of the dividend, or NaN for 0 / 0; a nonzero divisor yields the exact quotient. -/
def fdiv (a b : ℚ) : F64Eta :=
  if b = 0 then
    if 0 < a then F64Eta.posInf
    else if a < 0 then F64Eta.negInf
    else F64Eta.nan
  else
    F64Eta.val (a / b)

/-- Rust `as u32` cast of a finite `f64`: truncation toward zero, saturating at the `u32`
bounds; negative values cast to 0. -/
def f64ToU32 (q : ℚ) : Nat :=
  if q < 0 then 0 else min ⌊q⌋.toNat (2 ^ 32 - 1)

/-- Behaviour of `ngettext` with the untranslated English catalogue: the singular form is
chosen exactly when the count is 1. -/
def ngettextEn (singular plural : String) (n : Nat) : String :=
  if n = 1 then singular else plural

/-- Right-aligned space padding of a number to a minimum width, as produced by the `{:3}`
and `{:2}` format specifiers in `src/utils.rs` (the `{:3.0}` precision is ignored for
integers). -/
def padNum (width : Nat) (n : Nat) : String :=
  String.mk (List.replicate (width - (toString n).length) ' ') ++ toString n

/-- Embedding of the non-infinite branch of `impl fmt::Display for HumanReadable`
(`src/utils.rs`): `sec` is the `as u32` cast of the raw ETA. Note the source computes the
minutes component of the hours branch as `sec % 3600`, without dividing by 60. -/
def renderSecs (sec : Nat) : String :=
  if 6000 < sec then
    let h := sec / 3600
    let min := sec % 3600
    padNum 3 h ++ " " ++ ngettextEn "hour" "hours" h ++ " " ++
      padNum 2 min ++ " " ++ ngettextEn "minute" "minutes" min
  else if 100 < sec then
    let min := sec / 60
    let sec2 := sec % 60
    padNum 3 min ++ " " ++ ngettextEn "minute" "minutes" min ++ " " ++
      padNum 2 sec2 ++ " " ++ ngettextEn "second" "seconds" sec2
  else
    padNum 3 sec ++ " " ++ ngettextEn "second" "seconds" sec

/-- Embedding of `HumanReadable`'s `Display` implementation: infinite values print
"Unknown"; any other value (NaN casts to 0) is rendered by `renderSecs`. -/
def humanReadableString (x : F64Eta) : String :=
  match x with
  | F64Eta.posInf => "Unknown"
  | F64Eta.negInf => "Unknown"
  | F64Eta.nan => renderSecs 0
  | F64Eta.val q => renderSecs (f64ToU32 q)

/-- Embedding of `DataTransferEta::get_estimate_string`: speed is the average of the history
entries (0 for an empty history), remaining is `total_len - total_transferred`, and the
quotient is rendered by `humanReadableString`. The `f64` fold, average and subtraction are
carried out exactly over `ℚ`. -/
def DataTransferEta.get_estimate_string (s : DataTransferEta) : String :=
  let sum : ℚ := s.transferred_last_few_secs.foldl (fun (a : ℚ) (v : Nat) => a + (v : ℚ)) 0
  let len := s.transferred_last_few_secs.length
  let speed : ℚ := if 0 < len then sum / (len : ℚ) else 0
  let remaining : ℚ := (s.total_len : ℚ) - (s.total_transferred : ℚ)
  humanReadableString (fdiv remaining speed)

/-- Engine-reported protocol states (`rqs_lib::TransferState`), exactly the variants matched
in the sources. -/
inductive RqsState where
  | Initial
  | ReceivedConnectionRequest
  | SentUkeyServerInit
  | SentPairedKeyEncryption
  | ReceivedUkeyClientFinish
  | SentConnectionResponse
  | SentPairedKeyResult
  | ReceivedPairedKeyResult
  | WaitingForUserConsent
  | SentUkeyClientInit
  | SentUkeyClientFinish
  | SentIntroduction
  | SendingFiles
  | ReceivingFiles
  | Disconnected
  | Rejected
  | Cancelled
  | Finished
  deriving Repr, DecidableEq

/-- Direction tag of a transfer event (`rqs_lib::channel::TransferKind`). -/
inductive TransferKind where
  | Inbound
  | Outbound
  deriving Repr, DecidableEq

/-- Consent and cancellation actions sent to the engine
(`rqs_lib::channel::TransferAction`). -/
inductive TransferAction where
  | ConsentAccept
  | ConsentDecline
  | TransferCancel
  deriving Repr, DecidableEq

/-- Kind discriminant of a transfer payload (`rqs_lib::hdl::info::TransferPayloadKind`). -/
inductive TransferPayloadKind where
  | Files
  | Text
  | Url
  | WiFi
  deriving Repr, DecidableEq

/-- Transfer payload (`rqs_lib::hdl::info::TransferPayload`). -/
inductive TransferPayload where
  | Files (files : List String)
  | Text (text : String)
  | Url (text : String)
  | Wifi (ssid password : String)
  deriving Repr, DecidableEq

/-- Text payload type tag (`rqs_lib::hdl::TextPayloadType`). -/
inductive TextPayloadType where
  | Url
  | Text
  | Wifi
  deriving Repr, DecidableEq

/-- Metadata attached to a client event, restricted to the fields the coordinator reads:
byte totals, pin code, source device name and payload data. -/
structure TransferMetadata where
  total_bytes : Nat
  ack_bytes : Nat
  pin_code : Option String
  source_name : Option String
  payload_kind : TransferPayloadKind
  payload : Option TransferPayload
  payload_preview : Option String
  deriving Repr, DecidableEq

/-- Client half of an engine message (`rqs_lib::channel::MessageClient`). -/
structure MessageClient where
  kind : TransferKind
  state : Option RqsState
  metadata : Option TransferMetadata
  deriving Repr, DecidableEq

/-- Engine channel message body (`rqs_lib::channel::Message`): library-internal messages
carry an action, client messages carry a `MessageClient`. -/
inductive Message where
  | Lib (action : TransferAction)
  | Client (client : MessageClient)
  deriving Repr, DecidableEq

/-- Engine channel message (`rqs_lib::channel::ChannelMessage`): a transfer id plus a body. -/
structure ChannelMessage where
  id : String
  msg : Message
  deriving Repr, DecidableEq

/-- Embedding of `Message::as_client` (used by the router to discard library messages). -/
def Message.as_client : Message → Option MessageClient
  | Message.Lib _ => none
  | Message.Client c => some c

namespace MessageClient

/-- Embedding of `ChannelMessage::device_name` (`src/objects/send_transfer.rs`), on the
client message it unconditionally casts to: the source device name, or "Unknown device". -/
def device_name (cm : MessageClient) : String :=
  ((cm.metadata.bind fun meta => meta.source_name).getD "Unknown device")

/-- Embedding of `ChannelMessage::files` (`src/objects/send_transfer.rs`). -/
def files (cm : MessageClient) : Option (List String) :=
  cm.metadata.bind fun meta =>
    match meta.payload with
    | some (TransferPayload.Files fs) => some fs
    | _ => none

/-- Embedding of `ChannelMessage::is_text_type` (`src/objects/send_transfer.rs`): true for
the Text, Url and WiFi payload kinds. -/
def is_text_type (cm : MessageClient) : Bool :=
  (cm.metadata.map fun meta =>
    match meta.payload_kind with
    | TransferPayloadKind.Text | TransferPayloadKind.Url | TransferPayloadKind.WiFi => true
    | TransferPayloadKind.Files => false).getD false

/-- Embedding of `ChannelMessage::transferred_text_data` (`src/objects/send_transfer.rs`). -/
def transferred_text_data (cm : MessageClient) : Option (String × TextPayloadType) :=
  cm.metadata.bind fun meta =>
    match meta.payload with
    | some (TransferPayload.Text text) => some (text, TextPayloadType.Text)
    | some (TransferPayload.Url text) => some (text, TextPayloadType.Url)
    | some (TransferPayload.Wifi ssid password) =>
        some (ssid ++ ": " ++ password, TextPayloadType.Wifi)
    | _ => none

end MessageClient

/-- UI-level transfer state of an outbound session (`TransferState` in
`src/objects/send_transfer.rs`); `AwaitingConsentOrIdle` is the `Default`. -/
inductive TransferState where
  | Queued
  | AwaitingConsentOrIdle
  | RequestedForConsent
  | OngoingTransfer
  | Failed
  | Done
  deriving Repr, DecidableEq

/-- Outbound session model item (`SendRequestState` in `src/objects/send_transfer.rs`),
restricted to the fields the coordinator logic reads and writes: the endpoint id of its
`EndpointInfo`, the UI-level transfer state, and the last protocol event. -/
structure SendRequestState where
  endpoint_id : String
  transfer_state : TransferState
  event : Option ChannelMessage
  deriving Repr, DecidableEq

/-- States that make `refresh_recipients` keep a session, as matched by the `filter` in
`setup_recipient_page` (`src/window.rs`): `Queued`, `RequestedForConsent` and
`OngoingTransfer` cards stay; `AwaitingConsentOrIdle`, `Failed` and `Done` cards are
removed. -/
def shouldRemoveOnRefresh : TransferState → Bool
  | TransferState.Queued | TransferState.RequestedForConsent
  | TransferState.OngoingTransfer => false
  | TransferState.AwaitingConsentOrIdle | TransferState.Failed
  | TransferState.Done => true

/-- Id-keyed outbound registry (`send_transfers_id_cache: HashMap<String, SendRequestState>`
in `src/window.rs`), modelled as a lookup function. -/
def SendCache : Type := String → Option SendRequestState

/-- Removal of one key from the id-keyed registry (`HashMap::remove`). -/
def SendCache.remove (cache : SendCache) (id : String) : SendCache :=
  fun k => if k = id then none else cache k

/-- Embedding of the removal loop of the refresh handler in `setup_recipient_page`
(`src/window.rs`): each collected `(position, card)` pair is removed from the model at its
original position adjusted by the number of cards removed so far, and its endpoint id is
removed from the id-keyed registry. -/
def refreshLoop :
    List SendRequestState → SendCache → List (Nat × SendRequestState) → Nat →
      List SendRequestState × SendCache
  | model, cache, [], _ => (model, cache)
  | model, cache, (pos, obj) :: rest, items_removed =>
      refreshLoop (model.eraseIdx (pos - items_removed)) (cache.remove obj.endpoint_id)
        rest (items_removed + 1)

/-- Embedding of the refresh-recipients click handler in `setup_recipient_page`
(`src/window.rs`): enumerate the recipient model, keep the positions of every card whose
state is in the removal set, and run the removal loop. The positions are produced by
`enumerate().filter()` in ascending order, so the `sort_by_key` on positions in the source
is the identity and is omitted. -/
def refresh_recipients (model : List SendRequestState) (cache : SendCache) :
    List SendRequestState × SendCache :=
  let recipients_to_remove :=
    (model.enumFrom 0).filter fun p => shouldRemoveOnRefresh p.2.transfer_state
  refreshLoop model cache recipients_to_remove 0

/-- Sessions counted as holding the single outbound transfer slot in `emit_send_files`
(`src/widgets/recipient_card.rs`): `RequestedForConsent` or `OngoingTransfer`. -/
def holdsTransferSlot : TransferState → Bool
  | TransferState.RequestedForConsent | TransferState.OngoingTransfer => true
  | _ => false

/-- Embedding of the queueing decision in `emit_send_files`
(`src/widgets/recipient_card.rs`): the send will be queued when any session in the
recipient model is currently `RequestedForConsent` or `OngoingTransfer`. -/
def will_be_queued (model : List SendRequestState) : Bool :=
  model.any fun it => holdsTransferSlot it.transfer_state

/-- Embedding of the session-state effect of `emit_send_files`
(`src/widgets/recipient_card.rs`) for the model item at index `i`: when `will_be_queued`
holds, the item's transfer state is set to `Queued`; otherwise no state is written. The
engine `send` itself is fire-and-forget and does not touch `transfer_state`. -/
def emit_send_files (model : List SendRequestState) (i : Nat) : List SendRequestState :=
  match model.get? i with
  | none => model
  | some it =>
      if will_be_queued model then
        model.set i { it with transfer_state := TransferState.Queued }
      else
        model

/-- Task handle tracked by the supervisor (`LoopingTaskHandle` in `src/window.rs`): the
scheduler tag is kept, the handle itself is opaque. -/
inductive LoopingTaskHandle where
  | Tokio (id : Nat)
  | Glib (id : Nat)
  deriving Repr, DecidableEq

/-- Embedding of the cancellation loop shared by `stop_rqs_service` and `close_request`
(`src/window.rs`): `while let Some(handle) = tasks.pop() { handle.abort() }`. The list is in
insertion order (`Vec::push` appends), `pop` removes the last element, and `abort` is
fire-and-forget. Returns the handles in the order they were aborted, together with the list
left behind. -/
def stopLoopingTasks (tasks : List LoopingTaskHandle) :
    List LoopingTaskHandle × List LoopingTaskHandle :=
  match h : tasks.getLast? with
  | none => ([], tasks)
  | some last =>
      let res := stopLoopingTasks tasks.dropLast
      (last :: res.1, res.2)
termination_by tasks.length
decreasing_by
  have hne : tasks ≠ [] := by
    intro hnil
    rw [hnil] at h
    simp at h
  simp only [List.length_dropLast]
  have hpos : 0 < tasks.length := List.length_pos.mpr hne
  omega

/-- Modelled from the spec: the `UserAction` enumeration of the inbound session
(`src/objects/mod.rs` is not among the sources). The unset state is `Option.none` at each
use site; the set values are consent accept, consent decline and transfer cancel. -/
inductive UserAction where
  | ConsentAccept
  | ConsentDecline
  | TransferCancel
  deriving Repr, DecidableEq

/-- Modelled from the spec: the inbound session state object
(`objects::ReceiveTransferState`, defined in the missing `src/objects/mod.rs`), restricted
to the properties read and written by `src/window.rs` and
`src/widgets/receive_transfer.rs`: the last protocol event, the user action and the ETA
estimator. -/
structure ReceiveTransferState where
  event : Option ChannelMessage
  user_action : Option UserAction
  eta : DataTransferEta
  deriving Repr, DecidableEq

/-- Modelled from the spec: `ReceiveTransferState::new(&channel_message)` stores the
creating event; the user action starts unset and the estimator zeroed. -/
def ReceiveTransferState.new (msg : ChannelMessage) : ReceiveTransferState :=
  { event := some msg
    user_action := none
    eta := DataTransferEta.new 0 }

/-- Inbound slot entry (`ReceiveTransferCache` in `src/window.rs`). The
`CancellationToken` is modelled by whether it has been cancelled. -/
structure ReceiveTransferCache where
  transfer_id : String
  notification_id : String
  state : ReceiveTransferState
  auto_decline_ctk_cancelled : Bool
  deriving Repr, DecidableEq

/-- State touched by the UI-side event-forwarding loop of `spawn_rqs_receiver_tasks`
(`src/window.rs`): the single inbound slot and the id-keyed outbound registry. -/
structure RouterState where
  receive_transfer_cache : Option ReceiveTransferCache
  send_transfers_id_cache : SendCache

/-- Embedding of one iteration of the event-forwarding loop in `spawn_rqs_receiver_tasks`
(`src/window.rs`). `fresh_notification_id` stands for the `glib::uuid_string_random()` call.
Library messages are discarded; a missing state defaults to `Initial`;
`WaitingForUserConsent` builds a new inbound session and writes it into the slot; every
other client state is routed by direction: `Inbound` events are applied to the occupied slot
(cancelling its auto-decline token and overwriting its event), `Outbound` events are applied
to the registry entry for the event id, if any. -/
def routeEvent (st : RouterState) (channel_message : ChannelMessage)
    (fresh_notification_id : String) : RouterState :=
  match channel_message.msg.as_client with
  | none => st
  | some client_msg =>
    match client_msg.state.getD RqsState.Initial with
    | RqsState.Initial
    | RqsState.ReceivedConnectionRequest
    | RqsState.SentUkeyServerInit
    | RqsState.SentPairedKeyEncryption
    | RqsState.ReceivedUkeyClientFinish
    | RqsState.SentConnectionResponse
    | RqsState.SentPairedKeyResult
    | RqsState.ReceivedPairedKeyResult => st
    | RqsState.WaitingForUserConsent =>
        { st with
          receive_transfer_cache := some
            { transfer_id := channel_message.id
              notification_id := fresh_notification_id
              state := ReceiveTransferState.new channel_message
              auto_decline_ctk_cancelled := false } }
    | RqsState.SentUkeyClientInit
    | RqsState.SentUkeyClientFinish
    | RqsState.SentIntroduction
    | RqsState.Disconnected
    | RqsState.Rejected
    | RqsState.Cancelled
    | RqsState.Finished
    | RqsState.SendingFiles
    | RqsState.ReceivingFiles =>
      match client_msg.kind with
      | TransferKind.Inbound =>
          match st.receive_transfer_cache with
          | none => st
          | some cached =>
              { st with
                receive_transfer_cache := some
                  { cached with
                    auto_decline_ctk_cancelled := true
                    state := { cached.state with event := some channel_message } } }
      | TransferKind.Outbound =>
          match st.send_transfers_id_cache channel_message.id with
          | none => st
          | some model_item =>
              { st with
                send_transfers_id_cache := fun k =>
                  if k = channel_message.id then
                    some { model_item with event := some channel_message }
                  else
                    st.send_transfers_id_cache k }

/-- UI surface of the inbound session as driven by the `connect_event_notify` handler
installed by `present_receive_transfer_ui` (`src/widgets/receive_transfer.rs`): `init_id` is
the transfer id of the event the UI was created with, the dialog flags track whether the
consent dialog, the progress dialog and the received-text dialog are presented and whether
the progress dialog may close, `is_user_cancelled` is the flag shared with the user-action
handler, and the bodies of notifications and toasts surfaced so far are recorded in order
(composite translated bodies are abbreviated to fixed markers). -/
structure InboundUi where
  init_id : String
  user_action : Option UserAction
  is_user_cancelled : Bool
  progress_can_close : Bool
  progress_open : Bool
  consent_open : Bool
  text_result_open : Bool
  eta : DataTransferEta
  notifications : List String
  toasts : List String
  deriving Repr, DecidableEq

/-- Embedding of the `connect_event_notify` handler of `present_receive_transfer_ui`
(`src/widgets/receive_transfer.rs`). The handler casts the message to a client message and
unwraps its metadata unconditionally, so a library message or missing metadata is a panic
(`none`); `now` stands for the clock read inside `step_with`, whose `usize` underflow is
also a panic. Widget construction is reduced to the tracked dialog flags and notice lists;
the timer spawned by the `WaitingForUserConsent` branch is modelled by `consentStep`. -/
def handleEventNotify (ui : InboundUi) (event_msg : ChannelMessage) (now : ℚ) :
    Option InboundUi :=
  match event_msg.msg.as_client with
  | none => none
  | some client_msg =>
    match client_msg.metadata with
    | none => none
    | some metadata =>
      match client_msg.state.getD RqsState.Initial with
      | RqsState.Initial
      | RqsState.ReceivedConnectionRequest
      | RqsState.SentUkeyServerInit
      | RqsState.SentUkeyClientInit
      | RqsState.SentUkeyClientFinish
      | RqsState.SentPairedKeyEncryption
      | RqsState.ReceivedUkeyClientFinish
      | RqsState.SentConnectionResponse
      | RqsState.SentPairedKeyResult
      | RqsState.SentIntroduction
      | RqsState.ReceivedPairedKeyResult => some ui
      | RqsState.WaitingForUserConsent =>
          some
            { ui with
              consent_open := true
              notifications := ui.notifications ++ ["wants-to-share"]
              eta := ui.eta.prepare_for_new_transfer (some metadata.total_bytes) }
      | RqsState.ReceivingFiles =>
          if client_msg.is_text_type then
            some ui
          else
            match ui.eta.step_with metadata.ack_bytes now with
            | none => none
            | some eta2 => some { ui with eta := eta2 }
      | RqsState.SendingFiles => some ui
      | RqsState.Disconnected =>
          if event_msg.id = ui.init_id then
            let ui2 := { ui with progress_can_close := true }
            let ui3 :=
              if ui2.user_action = some UserAction.ConsentAccept then
                { ui2 with progress_open := false }
              else
                { ui2 with consent_open := false }
            some
              { ui3 with
                notifications := ui3.notifications ++ ["Unexpected dissconnection"]
                toasts := ui3.toasts ++ ["Unexpected dissconnection"] }
          else
            some ui
      | RqsState.Rejected => some ui
      | RqsState.Cancelled =>
          let ui2 := { ui with progress_can_close := true }
          let ui3 :=
            if ui2.user_action = some UserAction.ConsentAccept then
              { ui2 with progress_open := false }
            else
              { ui2 with consent_open := false }
          if ui3.is_user_cancelled then
            some ui3
          else
            some
              { ui3 with
                notifications := ui3.notifications ++ ["Transfer cancelled by sender"]
                toasts := ui3.toasts ++ ["Transfer cancelled by sender"] }
      | RqsState.Finished =>
          let ui2 := { ui with progress_can_close := true }
          let ui3 :=
            if ui2.user_action = some UserAction.ConsentAccept then
              { ui2 with progress_open := false }
            else
              { ui2 with consent_open := false }
          match client_msg.transferred_text_data with
          | some _ =>
              some
                { ui3 with
                  text_result_open := true
                  notifications := ui3.notifications ++ ["received-text"] }
          | none =>
              match client_msg.files with
              | none => none
              | some _ =>
                  some
                    { ui3 with
                      notifications := ui3.notifications ++ ["files-received"]
                      toasts := ui3.toasts ++ ["files-received"] }

/-- Embedding of `present_receive_transfer_ui` (`src/widgets/receive_transfer.rs`) up to its
trailing `notify_event` call: the UI starts with both dialogs unpresented, the progress
dialog not closable, the cancel flag clear and `init_id` bound to the id of the creating
event (a missing event is the `expect` panic), then the event handler runs once. -/
def present_receive_transfer_ui (receive_state : ReceiveTransferState) (now : ℚ) :
    Option InboundUi :=
  match receive_state.event with
  | none => none
  | some event =>
      handleEventNotify
        { init_id := event.id
          user_action := receive_state.user_action
          is_user_cancelled := false
          progress_can_close := false
          progress_open := false
          consent_open := false
          text_result_open := false
          eta := receive_state.eta
          notifications := []
          toasts := [] }
        event now

/-- State of the auto-decline race of one inbound session: the session's user action, the
cancellation token, whether the `tokio::select!` between the 60-second timer and the token
has resolved, and how many `ConsentDecline` transitions and timeout toasts the timeout arm
has synthesized. -/
structure ConsentRace where
  user_action : Option UserAction
  ctk_cancelled : Bool
  select_resolved : Bool
  declines_synthesized : Nat
  timeout_notices : Nat
  deriving Repr, DecidableEq

/-- Race state at inbound-session creation (`WaitingForUserConsent`): user action unset,
token not cancelled, select pending, nothing synthesized. -/
def ConsentRace.init : ConsentRace :=
  { user_action := none
    ctk_cancelled := false
    select_resolved := false
    declines_synthesized := 0
    timeout_notices := 0 }

/-- Scheduler events of the auto-decline race. -/
inductive ConsentEvent where
  | userSet (a : UserAction)
  | timerFires
  | ctkFires
  deriving Repr, DecidableEq

/-- One scheduler step of the auto-decline race. `userSet` is
`ReceiveTransferState::set_user_action` plus the `connect_user_action_notify` handler
(`src/widgets/receive_transfer.rs`, lines 157-256), which always cancels the token first.
`timerFires` is the 60-second arm of the `tokio::select!` (lines 400-418): it can only win
while the select is unresolved and the token is not yet cancelled, because cancelling the
token wakes the task immediately and the cancellation arm then wins any race in which the
cancel strictly precedes the timer; its body synthesizes `ConsentDecline` and a timeout
toast only when the user action is still unset, and the synthesized set runs the notify
handler, which cancels the token. `ctkFires` is the cancellation arm, whose body is empty;
it is only ready once the token is cancelled. Either arm resolves the select for good. -/
def consentStep (s : ConsentRace) : ConsentEvent → ConsentRace
  | ConsentEvent.userSet a => { s with user_action := some a, ctk_cancelled := true }
  | ConsentEvent.timerFires =>
      if s.select_resolved || s.ctk_cancelled then
        s
      else if s.user_action.isNone then
        { s with
          select_resolved := true
          user_action := some UserAction.ConsentDecline
          ctk_cancelled := true
          declines_synthesized := s.declines_synthesized + 1
          timeout_notices := s.timeout_notices + 1 }
      else
        { s with select_resolved := true }
  | ConsentEvent.ctkFires =>
      if !s.ctk_cancelled || s.select_resolved then s else { s with select_resolved := true }

/-- A full schedule of the race, run from a given state. -/
def consentRun (s : ConsentRace) (events : List ConsentEvent) : ConsentRace :=
  events.foldl consentStep s

/-- Folds a list of `(total_transferred, clock)` arguments through `step_with`, propagating
the panic case. -/
def applySteps (s : DataTransferEta) : List (Nat × ℚ) → Option DataTransferEta
  | [] => some s
  | (a, t) :: rest =>
      match s.step_with a t with
      | none => none
      | some s2 => applySteps s2 rest

/-- Sample metadata for concrete runs: a 100-byte files transfer with no further payload
details. -/
def sampleMetadata : TransferMetadata :=
  { total_bytes := 100
    ack_bytes := 0
    pin_code := none
    source_name := none
    payload_kind := TransferPayloadKind.Files
    payload := none
    payload_preview := none }

/-- Sample inbound UI surface: created for transfer id "a", consent already accepted, the
progress dialog presented, a user-initiated cancel already noted. -/
def sampleAcceptedUi : InboundUi :=
  { init_id := "a"
    user_action := some UserAction.ConsentAccept
    is_user_cancelled := true
    progress_can_close := false
    progress_open := true
    consent_open := false
    text_result_open := false
    eta := DataTransferEta.new 0
    notifications := []
    toasts := [] }

/-- Sample inbound `Cancelled` event for transfer id "b". -/
def cancelledMsgB : ChannelMessage :=
  { id := "b"
    msg := Message.Client
      { kind := TransferKind.Inbound
        state := some RqsState.Cancelled
        metadata := some sampleMetadata } }

/-- Sample `WaitingForUserConsent` event for transfer id "b". -/
def wfcMsgB : ChannelMessage :=
  { id := "b"
    msg := Message.Client
      { kind := TransferKind.Inbound
        state := some RqsState.WaitingForUserConsent
        metadata := some sampleMetadata } }

/-- Sample router state whose inbound slot is occupied by an active transfer with id "a". -/
def occupiedRouterState : RouterState :=
  { receive_transfer_cache := some
      { transfer_id := "a"
        notification_id := "n1"
        state :=
          { event := none
            user_action := some UserAction.ConsentAccept
            eta := DataTransferEta.new 0 }
        auto_decline_ctk_cancelled := true }
    send_transfers_id_cache := fun _ => none }

end Packet

namespace Packet

theorem padNum_length (w n : Nat) : w ≤ (padNum w n).length := by
  unfold padNum
  rw [String.length_append]
  have hmk : (String.mk (List.replicate (w - (toString n).length) ' ')).length =
      w - (toString n).length := by
    show (List.replicate (w - (toString n).length) ' ').length = _
    exact List.length_replicate _ _
  omega

theorem ngettextEn_length_ge {c : Nat} (sg pl : String) (n : Nat)
    (h1 : c ≤ sg.length) (h2 : c ≤ pl.length) : c ≤ (ngettextEn sg pl n).length := by
  unfold ngettextEn
  split <;> assumption

theorem renderSecs_length (sec : Nat) : 7 < (renderSecs sec).length := by
  unfold renderSecs
  split
  · have h1 := padNum_length 3 (sec / 3600)
    have h2 := padNum_length 2 (sec % 3600)
    have h3 : 4 ≤ (ngettextEn "hour" "hours" (sec / 3600)).length :=
      ngettextEn_length_ge _ _ _ (by decide) (by decide)
    have h4 : 6 ≤ (ngettextEn "minute" "minutes" (sec % 3600)).length :=
      ngettextEn_length_ge _ _ _ (by decide) (by decide)
    simp only [String.length_append]
    have hsp : (" " : String).length = 1 := by decide
    omega
  split
  · have h1 := padNum_length 3 (sec / 60)
    have h2 := padNum_length 2 (sec % 60)
    have h3 : 6 ≤ (ngettextEn "minute" "minutes" (sec / 60)).length :=
      ngettextEn_length_ge _ _ _ (by decide) (by decide)
    have h4 : 6 ≤ (ngettextEn "second" "seconds" (sec % 60)).length :=
      ngettextEn_length_ge _ _ _ (by decide) (by decide)
    simp only [String.length_append]
    have hsp : (" " : String).length = 1 := by decide
    omega
  · have h1 := padNum_length 3 sec
    have h3 : 6 ≤ (ngettextEn "second" "seconds" sec).length :=
      ngettextEn_length_ge _ _ _ (by decide) (by decide)
    simp only [String.length_append]
    have hsp : (" " : String).length = 1 := by decide
    omega

theorem renderSecs_ne_unknown (sec : Nat) : renderSecs sec ≠ "Unknown" := by
  intro h
  have hlen := renderSecs_length sec
  rw [h] at hlen
  have : ("Unknown" : String).length = 7 := by decide
  omega

theorem foldl_add_natCast (l : List Nat) (c : ℚ) :
    l.foldl (fun (a : ℚ) (v : Nat) => a + (v : ℚ)) c = c + (l.sum : ℚ) := by
  induction l generalizing c with
  | nil => simp
  | cons x xs ih =>
      rw [List.foldl_cons, ih, List.sum_cons]
      push_cast
      ring

theorem natList_sum_eq_zero {l : List Nat} : l.sum = 0 ↔ ∀ x ∈ l, x = 0 := by
  induction l with
  | nil => simp
  | cons x xs ih =>
      rw [List.sum_cons, Nat.add_eq_zero]
      simp [ih]

/-- Unfolding of `get_estimate_string` with the fold of the history replaced by its sum. -/
theorem get_estimate_string_def (s : DataTransferEta) :
    s.get_estimate_string =
      humanReadableString
        (fdiv ((s.total_len : ℚ) - (s.total_transferred : ℚ))
          (if 0 < s.transferred_last_few_secs.length then
            (s.transferred_last_few_secs.sum : ℚ) / (s.transferred_last_few_secs.length : ℚ)
          else 0)) := by
  show humanReadableString _ = humanReadableString _
  rw [foldl_add_natCast, zero_add]

/-- Characterization of the "Unknown" rendering of `get_estimate_string`: it appears exactly
when the average speed is 0 (empty history or all-zero deltas) and the remaining byte count
is nonzero; a 0 speed with 0 remaining is the NaN case, rendered as seconds. -/
theorem get_estimate_string_unknown_iff (s : DataTransferEta) :
    s.get_estimate_string = "Unknown" ↔
      ((∀ d ∈ s.transferred_last_few_secs, d = 0) ∧ s.total_len ≠ s.total_transferred) := by
  rw [get_estimate_string_def]
  by_cases hsum : s.transferred_last_few_secs.sum = 0
  · have hall : ∀ d ∈ s.transferred_last_few_secs, d = 0 := natList_sum_eq_zero.mp hsum
    have hspeed :
        (if 0 < s.transferred_last_few_secs.length then
            (s.transferred_last_few_secs.sum : ℚ) / (s.transferred_last_few_secs.length : ℚ)
          else 0) = 0 := by
      rw [hsum]
      split <;> simp
    rw [hspeed]
    by_cases hrem : s.total_len = s.total_transferred
    · have hz : ((s.total_len : ℚ) - (s.total_transferred : ℚ)) = 0 := by
        rw [hrem]; ring
      rw [hz]
      unfold fdiv humanReadableString
      simp only [lt_irrefl, if_false, if_pos rfl]
      constructor
      · intro h
        exact absurd h (renderSecs_ne_unknown 0)
      · rintro ⟨-, h⟩
        exact absurd hrem h
    · have hz : ((s.total_len : ℚ) - (s.total_transferred : ℚ)) ≠ 0 := by
        rw [sub_ne_zero]
        exact_mod_cast hrem
      unfold fdiv humanReadableString
      rcases lt_or_gt_of_ne hz with hneg | hpos
      · rw [if_pos rfl, if_neg (not_lt.mpr hneg.le), if_pos hneg]
        simp only [eq_self_iff_true, true_iff]
        exact ⟨hall, hrem⟩
      · rw [if_pos rfl, if_pos hpos]
        simp only [eq_self_iff_true, true_iff]
        exact ⟨hall, hrem⟩
  · have hnil : s.transferred_last_few_secs ≠ [] := by
      intro h
      rw [h] at hsum
      exact hsum rfl
    have hlen : 0 < s.transferred_last_few_secs.length := List.length_pos.mpr hnil
    have hspeed :
        (if 0 < s.transferred_last_few_secs.length then
            (s.transferred_last_few_secs.sum : ℚ) / (s.transferred_last_few_secs.length : ℚ)
          else 0) =
          (s.transferred_last_few_secs.sum : ℚ) / (s.transferred_last_few_secs.length : ℚ) :=
      if_pos hlen
    rw [hspeed]
    have hne : (s.transferred_last_few_secs.sum : ℚ) /
        (s.transferred_last_few_secs.length : ℚ) ≠ 0 := by
      apply div_ne_zero
      · exact_mod_cast hsum
      · exact_mod_cast hlen.ne'
    unfold fdiv humanReadableString
    rw [if_neg hne]
    constructor
    · intro h
      exact absurd h (renderSecs_ne_unknown _)
    · rintro ⟨hall, -⟩
      exact absurd (natList_sum_eq_zero.mpr hall) hsum

theorem step_with_spec (s : DataTransferEta) (a : Nat) (t : ℚ)
    (h : s.total_transferred ≤ a) :
    ∃ s', s.step_with a t = some s' ∧ s'.total_transferred = a ∧
      (s'.transferred_this_sec = s.transferred_this_sec + (a - s.total_transferred) ∨
        (s'.transferred_this_sec = 0 ∧
          s'.transferred_last_few_secs.head? =
            some (s.transferred_this_sec + (a - s.total_transferred)))) := by
  obtain ⟨tl, tt, bucket, hist, ls, se⟩ := s
  simp only [DataTransferEta.step_with]
  simp only at h
  rw [if_neg (not_lt.mpr h)]
  cases ls with
  | none => exact ⟨_, rfl, rfl, Or.inl rfl⟩
  | some start =>
      dsimp only
      split
      · exact ⟨_, rfl, rfl, Or.inr ⟨rfl, rfl⟩⟩
      · exact ⟨_, rfl, rfl, Or.inl rfl⟩

theorem step_with_hist_length {s : DataTransferEta} {a : Nat} {t : ℚ}
    {s' : DataTransferEta} (h : s.step_with a t = some s')
    (hle : s.transferred_last_few_secs.length ≤ STEPS_TRACK_COUNT) :
    s'.transferred_last_few_secs.length ≤ STEPS_TRACK_COUNT := by
  obtain ⟨tl, tt, bucket, hist, ls, se⟩ := s
  simp only at hle
  simp only [DataTransferEta.step_with] at h
  split at h
  · exact absurd h (by simp)
  cases ls with
  | none =>
      rw [Option.some_inj] at h
      subst h
      exact hle
  | some start =>
      dsimp only at h
      split at h
      · rw [Option.some_inj] at h
        subst h
        dsimp only
        split
        · next hfull =>
            simp only [List.length_cons, List.length_dropLast, hfull]
            decide
        · next hfull =>
            simp only [List.length_cons]
            unfold STEPS_TRACK_COUNT at hfull hle ⊢
            omega
      · rw [Option.some_inj] at h
        subst h
        exact hle

theorem step_with_push {s : DataTransferEta} {a : Nat} {t st : ℚ}
    {s' : DataTransferEta} (hls : s.last_sec = some st) (hel : 1 ≤ t - st)
    (h : s.step_with a t = some s') :
    s'.transferred_last_few_secs =
      (s.transferred_this_sec + (a - s.total_transferred)) ::
        (if s.transferred_last_few_secs.length = STEPS_TRACK_COUNT then
          s.transferred_last_few_secs.dropLast
        else s.transferred_last_few_secs) := by
  obtain ⟨tl, tt, bucket, hist, ls, se⟩ := s
  simp only at hls
  subst hls
  by_cases hlt : a < tt
  · simp [DataTransferEta.step_with, hlt] at h
  · simp only [DataTransferEta.step_with, if_neg hlt, if_pos hel, Option.some_inj] at h
    subst h
    rfl

theorem applySteps_hist_length (steps : List (Nat × ℚ)) :
    ∀ s s' : DataTransferEta, s.transferred_last_few_secs.length ≤ STEPS_TRACK_COUNT →
      applySteps s steps = some s' →
      s'.transferred_last_few_secs.length ≤ STEPS_TRACK_COUNT := by
  induction steps with
  | nil =>
      intro s s' hle h
      simp only [applySteps, Option.some_inj] at h
      subst h
      exact hle
  | cons p rest ih =>
      intro s s' hle h
      obtain ⟨a, t⟩ := p
      simp only [applySteps] at h
      cases hs : s.step_with a t with
      | none => rw [hs] at h; cases h
      | some s2 =>
          rw [hs] at h
          exact ih s2 s' (step_with_hist_length hs hle) h

/-- C3 counterexample: in the initial estimator state `new 0` the history is empty, so every
recorded delta is trivially 0 and the computed speed is 0, yet `get_estimate_string` renders
"  0 seconds" rather than "Unknown": with `total_len = total_transferred` the division is
0 / 0, which is NaN, not an infinity, and the NaN casts to 0 seconds. This falsifies the
claim that the rendering is "Unknown" whenever the history is empty or all-zero, regardless
of `total_len` and `total_transferred`. -/
theorem c3_unknown_counterexample :
    ¬ ((DataTransferEta.new 0).get_estimate_string = "Unknown" ↔
        ((DataTransferEta.new 0).transferred_last_few_secs = [] ∨
          ∀ d ∈ (DataTransferEta.new 0).transferred_last_few_secs, d = 0)) := by
  intro hiff
  have hval : (DataTransferEta.new 0).get_estimate_string = "  0 seconds" := by
    norm_num [DataTransferEta.get_estimate_string, DataTransferEta.new, fdiv,
      humanReadableString]
    decide
  have hun := hiff.mpr (Or.inl rfl)
  rw [hval] at hun
  exact absurd hun (by decide)

/-- C3 (amended): `get_estimate_string` renders "Unknown" if and only if the history of
per-second deltas is empty or every recorded delta is 0 (equivalently, iff the computed
speed is 0) AND the remaining byte count is nonzero (`total_len ≠ total_transferred`); when
the speed is 0 but nothing remains, the 0 / 0 division yields NaN, which is rendered as
"  0 seconds". -/
theorem c3_unknown_iff_amended (s : DataTransferEta) :
    s.get_estimate_string = "Unknown" ↔
      ((s.transferred_last_few_secs = [] ∨ ∀ d ∈ s.transferred_last_few_secs, d = 0) ∧
        s.total_len ≠ s.total_transferred) := by
  rw [get_estimate_string_unknown_iff]
  constructor
  · rintro ⟨hall, hne⟩
    exact ⟨Or.inr hall, hne⟩
  · rintro ⟨hor, hne⟩
    refine ⟨?_, hne⟩
    rcases hor with hnil | hall
    · intro d hd
      rw [hnil] at hd
      cases hd
    · exact hall

/-- C8: for every sequence of `step_with` calls from a fresh estimator the history never
exceeds `STEPS_TRACK_COUNT = 5` entries, and whenever a call crosses a second boundary
(`1 ≤ now - anchor`), the resulting history is the just-completed second bucket consed onto
the previous history, whose last (oldest) entry is evicted exactly when the history was
full. -/
theorem c8_history_capacity :
    (∀ (len : Nat) (steps : List (Nat × ℚ)) (s' : DataTransferEta),
        applySteps (DataTransferEta.new len) steps = some s' →
        s'.transferred_last_few_secs.length ≤ STEPS_TRACK_COUNT) ∧
      (∀ (s : DataTransferEta) (a : Nat) (t st : ℚ) (s' : DataTransferEta),
        s.last_sec = some st → 1 ≤ t - st → s.step_with a t = some s' →
        s'.transferred_last_few_secs =
          (s.transferred_this_sec + (a - s.total_transferred)) ::
            (if s.transferred_last_few_secs.length = STEPS_TRACK_COUNT then
              s.transferred_last_few_secs.dropLast
            else s.transferred_last_few_secs)) := by
  constructor
  · intro len steps s' h
    exact applySteps_hist_length steps (DataTransferEta.new len) s'
      (by simp [DataTransferEta.new]) h
  · intro s a t st s' hls hel h
    exact step_with_push hls hel h

/-- C8 witness: the capacity bound applied to the empty call sequence from `new 0`. -/
theorem c8_history_capacity_witness :
    (DataTransferEta.new 0).transferred_last_few_secs.length ≤ STEPS_TRACK_COUNT :=
  c8_history_capacity.1 0 [] (DataTransferEta.new 0) rfl

theorem applySteps_chain_isSome (steps : List (Nat × ℚ)) :
    ∀ s : DataTransferEta,
      List.Chain' (· ≤ ·) (s.total_transferred :: steps.map Prod.fst) →
      (applySteps s steps).isSome := by
  induction steps with
  | nil =>
      intro s _
      simp [applySteps]
  | cons p rest ih =>
      intro s hchain
      obtain ⟨a, t⟩ := p
      simp only [List.map_cons, List.chain'_cons] at hchain
      obtain ⟨hle, hchain'⟩ := hchain
      obtain ⟨s2, hs2, htotal, -⟩ := step_with_spec s a t hle
      simp only [applySteps, hs2]
      apply ih
      rw [htotal]
      exact hchain'

/-- C10: for every sequence of `step_with` calls whose arguments never drop below the
previously stored cumulative total (a non-decreasing chain starting at the current total),
no call panics; and each single call with `total_transferred ≥ previous` succeeds, stores
the argument as the new cumulative total, and adds the delta to the current-second bucket
(which is then either kept, or pushed to the head of the history and reset to 0 at a second
boundary). -/
theorem c10_monotone_step_safe :
    (∀ (s : DataTransferEta) (steps : List (Nat × ℚ)),
        List.Chain' (· ≤ ·) (s.total_transferred :: steps.map Prod.fst) →
        (applySteps s steps).isSome) ∧
      (∀ (s : DataTransferEta) (a : Nat) (t : ℚ), s.total_transferred ≤ a →
        ∃ s', s.step_with a t = some s' ∧ s'.total_transferred = a ∧
          (s'.transferred_this_sec = s.transferred_this_sec + (a - s.total_transferred) ∨
            (s'.transferred_this_sec = 0 ∧
              s'.transferred_last_few_secs.head? =
                some (s.transferred_this_sec + (a - s.total_transferred))))) := by
  constructor
  · intro s steps hchain
    exact applySteps_chain_isSome steps s hchain
  · intro s a t hle
    exact step_with_spec s a t hle

/-- C10 witness: a concrete non-decreasing two-call sequence from `new 10` does not panic. -/
theorem c10_monotone_step_safe_witness :
    (applySteps (DataTransferEta.new 10) [(3, 0), (7, 2)]).isSome :=
  c10_monotone_step_safe.1 (DataTransferEta.new 10) [(3, 0), (7, 2)]
    (by simp [DataTransferEta.new, List.chain'_cons])

/-- C4: the hours-plus-minutes branch of the renderer is wrong in the code. At the estimator
state with `total_len = 6001`, nothing transferred and a single history delta of 1 byte the
raw ETA is 6001 seconds, which is above the 6000-second threshold, and the code renders
"  1 hour 2401 minutes": the minutes component is `sec % 3600 = 2401`, not
`(sec % 3600) / 60 = 40`, so the displayed minutes value is not below 60 and the output
contradicts the intended hours-plus-minutes decomposition stated by the claim (and by the
printed unit label itself). -/
theorem c4_hours_minutes_code_bug :
    DataTransferEta.get_estimate_string
        { total_len := 6001
          total_transferred := 0
          transferred_this_sec := 0
          transferred_last_few_secs := [1]
          last_sec := none
          seconds_elapsed := 0 } = "  1 hour 2401 minutes" ∧
      6001 % 3600 = 2401 ∧ (6001 % 3600) / 60 = 40 ∧ ¬ 2401 < 60 := by
  refine ⟨?_, by decide, by decide, by decide⟩
  rw [get_estimate_string_def]
  norm_num [fdiv, humanReadableString, f64ToU32]
  decide

theorem stopLoopingTasks_eq (tasks : List LoopingTaskHandle) :
    stopLoopingTasks tasks = (tasks.reverse, []) := by
  induction tasks using List.reverseRecOn with
  | nil =>
      rw [stopLoopingTasks]
      simp
  | append_singleton as a ih =>
      rw [stopLoopingTasks]
      split
      · next heq =>
          rw [List.getLast?_concat] at heq
          cases heq
      · next last heq =>
          rw [List.getLast?_concat, Option.some_inj] at heq
          subst heq
          simp only [List.dropLast_concat, ih, List.reverse_append, List.reverse_cons,
            List.reverse_nil, List.nil_append, List.singleton_append]

/-- C9: the stop path pops and cancels every tracked task handle in reverse insertion order
(the aborted sequence is the reverse of the handle list), leaves the handle list empty, and
is idempotent: running it again on the now-empty list cancels nothing and leaves length 0. -/
theorem c9_stop_tasks_reverse_idempotent (tasks : List LoopingTaskHandle) :
    (stopLoopingTasks tasks).1 = tasks.reverse ∧
      (stopLoopingTasks tasks).2 = [] ∧
      stopLoopingTasks (stopLoopingTasks tasks).2 = ([], []) := by
  have h := stopLoopingTasks_eq tasks
  refine ⟨by rw [h], by rw [h], ?_⟩
  rw [h]
  exact stopLoopingTasks_eq []

theorem eraseIdx_append_cons (pre : List α) (x : α) (xs : List α) :
    (pre ++ x :: xs).eraseIdx pre.length = pre ++ xs := by
  induction pre with
  | nil => rfl
  | cons p ps ih =>
      simp only [List.cons_append, List.length_cons, List.eraseIdx_cons_succ, ih]

theorem refreshLoop_spec (m : List SendRequestState) :
    ∀ (pre : List SendRequestState) (cache : SendCache) (r : Nat),
      refreshLoop (pre ++ m) cache
        ((List.enumFrom (pre.length + r) m).filter fun p =>
          shouldRemoveOnRefresh p.2.transfer_state) r =
      (pre ++ m.filter fun s => !shouldRemoveOnRefresh s.transfer_state,
        fun k =>
          if k ∈ (m.filter fun s => shouldRemoveOnRefresh s.transfer_state).map
              (fun s => s.endpoint_id) then none
          else cache k) := by
  induction m with
  | nil =>
      intro pre cache r
      simp only [List.enumFrom_nil, List.filter_nil, refreshLoop, List.append_nil,
        List.map_nil, List.not_mem_nil, if_false, Prod.mk.injEq]
  | cons x xs ih =>
      intro pre cache r
      rw [List.enumFrom_cons, List.filter_cons]
      by_cases hx : shouldRemoveOnRefresh x.transfer_state
      · rw [if_pos (show (fun p : Nat × SendRequestState =>
            shouldRemoveOnRefresh p.2.transfer_state) (pre.length + r, x) = true from hx)]
        simp only [refreshLoop]
        have hidx : pre.length + r - r = pre.length := by omega
        rw [hidx, eraseIdx_append_cons]
        have harg : pre.length + r + 1 = pre.length + (r + 1) := by omega
        rw [harg, ih pre (cache.remove x.endpoint_id) (r + 1)]
        rw [List.filter_cons, List.filter_cons]
        simp only [hx, if_true, Bool.not_true, if_false, List.map_cons, Prod.mk.injEq]
        refine ⟨rfl, ?_⟩
        funext k
        simp only [SendCache.remove, List.mem_cons]
        by_cases hk : k = x.endpoint_id
        · simp [hk]
        · by_cases hmem : k ∈ (xs.filter fun s =>
              shouldRemoveOnRefresh s.transfer_state).map (fun s => s.endpoint_id)
          · simp [hk, hmem]
          · simp [hk, hmem]
      · rw [if_neg (show ¬ (fun p : Nat × SendRequestState =>
            shouldRemoveOnRefresh p.2.transfer_state) (pre.length + r, x) = true from hx)]
        have hxb : shouldRemoveOnRefresh x.transfer_state = false := by
          simpa using hx
        have h1 : pre ++ x :: xs = (pre ++ [x]) ++ xs := by simp
        have h2 : pre.length + r + 1 = (pre ++ [x]).length + r := by
          simp only [List.length_append, List.length_cons, List.length_nil]
          omega
        rw [h1, h2, ih (pre ++ [x]) cache r]
        rw [List.filter_cons, List.filter_cons, hxb]
        simp only [Bool.not_false, if_true, Bool.false_eq_true, if_false, Prod.mk.injEq,
          List.append_assoc, List.singleton_append]

/-- C5: `refresh_recipients` removes from the outbound registry exactly the sessions whose
state is in the removal set `AwaitingConsentOrIdle, Failed, Done`: the ordered presentation
list becomes its own filtration to the preserved states (`Queued`, `RequestedForConsent`,
`OngoingTransfer`), in order, and the id-keyed cache drops precisely the endpoint ids of the
removed sessions, leaving every other entry untouched. -/
theorem c5_refresh_removes_exactly (model : List SendRequestState) (cache : SendCache) :
    (refresh_recipients model cache).1 =
      (model.filter fun s => !shouldRemoveOnRefresh s.transfer_state) ∧
      ∀ k, (refresh_recipients model cache).2 k =
        if k ∈ (model.filter fun s => shouldRemoveOnRefresh s.transfer_state).map
            (fun s => s.endpoint_id) then none
        else cache k := by
  have h := refreshLoop_spec model [] cache 0
  simp only [List.nil_append, List.length_nil, Nat.zero_add] at h
  unfold refresh_recipients
  rw [h]
  exact ⟨rfl, fun k => rfl⟩

/-- C6: issuing a local send for a (new) session — one that does not itself hold the
transfer slot, as a freshly created or failed session never does — sets its transfer state
to `Queued` (never `RequestedForConsent`) exactly when some other session in the recipient
model is `RequestedForConsent` or `OngoingTransfer`; when no other session is in those
states, the operation leaves the model, and in particular the session's state, unchanged. -/
theorem c6_send_while_other_active_queued (model : List SendRequestState) (i : Nat)
    (it : SendRequestState) (hit : model.get? i = some it)
    (hnew : holdsTransferSlot it.transfer_state = false) :
    ((∃ j jt, j ≠ i ∧ model.get? j = some jt ∧ holdsTransferSlot jt.transfer_state = true) →
      (emit_send_files model i).get? i =
        some { it with transfer_state := TransferState.Queued } ∧
      TransferState.Queued ≠ TransferState.RequestedForConsent) ∧
    ((∀ j jt, j ≠ i → model.get? j = some jt → holdsTransferSlot jt.transfer_state = false) →
      emit_send_files model i = model) := by
  constructor
  · rintro ⟨j, jt, hji, hjt, hact⟩
    have hq : will_be_queued model = true := by
      unfold will_be_queued
      rw [List.any_eq_true]
      exact ⟨jt, List.get?_mem hjt, hact⟩
    have hlt : i < model.length := by
      obtain ⟨hl, -⟩ := List.get?_eq_some.mp hit
      exact hl
    refine ⟨?_, by intro hcontr; cases hcontr⟩
    unfold emit_send_files
    rw [hit, hq]
    simp only [if_true]
    exact List.get?_set_eq_of_lt _ hlt
  · intro hno
    have hq : will_be_queued model = false := by
      unfold will_be_queued
      rw [List.any_eq_false]
      intro x hx
      obtain ⟨j, hj⟩ := List.mem_iff_get?.mp hx
      by_cases hji : j = i
      · subst hji
        rw [hj] at hit
        rw [Option.some_inj] at hit
        subst hit
        simp [hnew]
      · have := hno j x hji hj
        simp [this]
    unfold emit_send_files
    rw [hit, hq]
    simp

/-- C6 witness: with session 0 in `RequestedForConsent`, issuing send for the idle session 1
yields `Queued` for session 1. -/
theorem c6_send_while_other_active_queued_witness :
    (emit_send_files
        [SendRequestState.mk "a" TransferState.RequestedForConsent none,
          SendRequestState.mk "b" TransferState.AwaitingConsentOrIdle none] 1).get? 1 =
      some (SendRequestState.mk "b" TransferState.Queued none) :=
  ((c6_send_while_other_active_queued
      [SendRequestState.mk "a" TransferState.RequestedForConsent none,
        SendRequestState.mk "b" TransferState.AwaitingConsentOrIdle none] 1
      (SendRequestState.mk "b" TransferState.AwaitingConsentOrIdle none) rfl rfl).1
    ⟨0, SendRequestState.mk "a" TransferState.RequestedForConsent none,
      Nat.zero_ne_one, rfl, rfl⟩).1

theorem consentStep_bound {s : ConsentRace} (e : ConsentEvent)
    (h1 : s.declines_synthesized ≤ 1)
    (h2 : s.declines_synthesized = 1 → s.select_resolved = true)
    (h3 : s.timeout_notices = s.declines_synthesized) :
    (consentStep s e).declines_synthesized ≤ 1 ∧
      ((consentStep s e).declines_synthesized = 1 →
        (consentStep s e).select_resolved = true) ∧
      (consentStep s e).timeout_notices = (consentStep s e).declines_synthesized := by
  obtain ⟨ua, ck, sr, d, n⟩ := s
  simp only at h1 h2 h3
  cases e with
  | userSet a => exact ⟨h1, h2, h3⟩
  | ctkFires =>
      cases ck <;> cases sr <;> simp_all [consentStep]
  | timerFires =>
      cases sr with
      | true => simp_all [consentStep]
      | false =>
          cases ck with
          | true => simp_all [consentStep]
          | false =>
              have hd : d = 0 := by
                by_contra hne
                have hd1 : d = 1 := by omega
                exact absurd (h2 hd1) (by simp)
              cases ua <;> simp_all [consentStep]

theorem consentRun_bound (events : List ConsentEvent) :
    ∀ s : ConsentRace, s.declines_synthesized ≤ 1 →
      (s.declines_synthesized = 1 → s.select_resolved = true) →
      s.timeout_notices = s.declines_synthesized →
      (consentRun s events).declines_synthesized ≤ 1 ∧
        ((consentRun s events).declines_synthesized = 1 →
          (consentRun s events).select_resolved = true) ∧
        (consentRun s events).timeout_notices =
          (consentRun s events).declines_synthesized := by
  induction events with
  | nil => intro s h1 h2 h3; exact ⟨h1, h2, h3⟩
  | cons e rest ih =>
      intro s h1 h2 h3
      obtain ⟨g1, g2, g3⟩ := consentStep_bound e h1 h2 h3
      exact ih (consentStep s e) g1 g2 g3

theorem consentRun_frozen (events : List ConsentEvent) :
    ∀ s : ConsentRace, s.ctk_cancelled = true →
      (consentRun s events).declines_synthesized = s.declines_synthesized ∧
        (consentRun s events).timeout_notices = s.timeout_notices := by
  induction events with
  | nil => intro s _; exact ⟨rfl, rfl⟩
  | cons e rest ih =>
      intro s hck
      have hstep : (consentStep s e).ctk_cancelled = true ∧
          (consentStep s e).declines_synthesized = s.declines_synthesized ∧
          (consentStep s e).timeout_notices = s.timeout_notices := by
        obtain ⟨ua, ck, sr, d, n⟩ := s
        simp only at hck
        subst hck
        cases e with
        | userSet a => exact ⟨rfl, rfl, rfl⟩
        | timerFires => cases sr <;> simp [consentStep]
        | ctkFires => cases sr <;> simp [consentStep]
      obtain ⟨f1, f2, f3⟩ := hstep
      obtain ⟨r1, r2⟩ := ih (consentStep s e) f1
      constructor
      · show (consentRun (consentStep s e) rest).declines_synthesized = _
        rw [r1, f2]
      · show (consentRun (consentStep s e) rest).timeout_notices = _
        rw [r2, f3]

theorem consentRun_no_timer (events : List ConsentEvent)
    (htf : ConsentEvent.timerFires ∉ events) :
    ∀ s : ConsentRace,
      (consentRun s events).declines_synthesized = s.declines_synthesized ∧
        (consentRun s events).timeout_notices = s.timeout_notices := by
  induction events with
  | nil => intro s; exact ⟨rfl, rfl⟩
  | cons e rest ih =>
      intro s
      have hene : e ≠ ConsentEvent.timerFires := by
        intro heq
        exact htf (heq ▸ List.mem_cons_self e rest)
      have hrest : ConsentEvent.timerFires ∉ rest := fun hmem =>
        htf (List.mem_cons_of_mem e hmem)
      have hstep : (consentStep s e).declines_synthesized = s.declines_synthesized ∧
          (consentStep s e).timeout_notices = s.timeout_notices := by
        cases e with
        | userSet a => exact ⟨rfl, rfl⟩
        | timerFires => exact absurd rfl hene
        | ctkFires =>
            obtain ⟨ua, ck, sr, d, n⟩ := s
            cases ck <;> cases sr <;> simp [consentStep]
      obtain ⟨f1, f2⟩ := hstep
      obtain ⟨r1, r2⟩ := ih hrest (consentStep s e)
      constructor
      · show (consentRun (consentStep s e) rest).declines_synthesized = _
        rw [r1, f1]
      · show (consentRun (consentStep s e) rest).timeout_notices = _
        rw [r2, f2]

theorem consentRun_no_user (events : List ConsentEvent)
    (hus : ∀ a, ConsentEvent.userSet a ∉ events)
    (htf : ConsentEvent.timerFires ∈ events) :
    (consentRun ConsentRace.init events).declines_synthesized = 1 ∧
      (consentRun ConsentRace.init events).timeout_notices = 1 := by
  induction events with
  | nil => cases htf
  | cons e rest ih =>
      have hus' : ∀ a, ConsentEvent.userSet a ∉ rest := fun a hmem =>
        hus a (List.mem_cons_of_mem e hmem)
      cases e with
      | userSet a => exact absurd (List.mem_cons_self _ rest) (hus a)
      | timerFires =>
          have hstep : consentStep ConsentRace.init ConsentEvent.timerFires =
              { user_action := some UserAction.ConsentDecline
                ctk_cancelled := true
                select_resolved := true
                declines_synthesized := 1
                timeout_notices := 1 } := by
            simp [consentStep, ConsentRace.init]
          show (consentRun (consentStep ConsentRace.init ConsentEvent.timerFires) rest).declines_synthesized = 1 ∧ _
          rw [hstep]
          obtain ⟨r1, r2⟩ := consentRun_frozen rest
            { user_action := some UserAction.ConsentDecline
              ctk_cancelled := true
              select_resolved := true
              declines_synthesized := 1
              timeout_notices := 1 } rfl
          exact ⟨r1, r2⟩
      | ctkFires =>
          have hmem : ConsentEvent.timerFires ∈ rest := by
            rcases List.mem_cons.mp htf with heq | hmem
            · cases heq
            · exact hmem
          have hstep : consentStep ConsentRace.init ConsentEvent.ctkFires =
              ConsentRace.init := by
            simp [consentStep, ConsentRace.init]
          show (consentRun (consentStep ConsentRace.init ConsentEvent.ctkFires) rest).declines_synthesized = 1 ∧ _
          rw [hstep]
          exact ih hus' hmem

/-- C7: in the auto-decline race, (1) the timeout arm synthesizes at most one
`ConsentDecline` along any schedule; (2) if no user action is ever set and the timer fires,
exactly one `ConsentDecline` and one timeout notice are synthesized — never two, no matter
how often the timer event is scheduled afterwards; and (3) if any user action is set before
the timer has fired, the timeout path never fires afterwards: setting the action cancels
the token, the cancellation arm then wins the select, and no decline or timeout notice is
ever synthesized. -/
theorem c7_timeout_synthesizes_once (events : List ConsentEvent) :
    (consentRun ConsentRace.init events).declines_synthesized ≤ 1 ∧
      ((∀ a, ConsentEvent.userSet a ∉ events) → ConsentEvent.timerFires ∈ events →
        (consentRun ConsentRace.init events).declines_synthesized = 1 ∧
          (consentRun ConsentRace.init events).timeout_notices = 1) ∧
      (∀ (l1 : List ConsentEvent) (a : UserAction) (l2 : List ConsentEvent),
        events = l1 ++ ConsentEvent.userSet a :: l2 →
        ConsentEvent.timerFires ∉ l1 →
        (consentRun ConsentRace.init events).declines_synthesized = 0 ∧
          (consentRun ConsentRace.init events).timeout_notices = 0) := by
  refine ⟨?_, ?_, ?_⟩
  · exact (consentRun_bound events ConsentRace.init (by decide) (by decide) rfl).1
  · intro hus htf
    exact consentRun_no_user events hus htf
  · intro l1 a l2 heq htf
    subst heq
    have hsplit : consentRun ConsentRace.init (l1 ++ ConsentEvent.userSet a :: l2) =
        consentRun (consentStep (consentRun ConsentRace.init l1)
          (ConsentEvent.userSet a)) l2 := by
      unfold consentRun
      rw [List.foldl_append, List.foldl_cons]
    rw [hsplit]
    obtain ⟨p1, p2⟩ := consentRun_no_timer l1 htf ConsentRace.init
    have hset : (consentStep (consentRun ConsentRace.init l1)
        (ConsentEvent.userSet a)).ctk_cancelled = true := rfl
    have hd : (consentStep (consentRun ConsentRace.init l1)
        (ConsentEvent.userSet a)).declines_synthesized = 0 := by
      show (consentRun ConsentRace.init l1).declines_synthesized = 0
      rw [p1]
      rfl
    have hn : (consentStep (consentRun ConsentRace.init l1)
        (ConsentEvent.userSet a)).timeout_notices = 0 := by
      show (consentRun ConsentRace.init l1).timeout_notices = 0
      rw [p2]
      rfl
    obtain ⟨r1, r2⟩ := consentRun_frozen l2 _ hset
    exact ⟨by rw [r1, hd], by rw [r2, hn]⟩

/-- C7 witness: with the single-event schedule in which the timer fires and no user action
was ever set, exactly one decline is synthesized. -/
theorem c7_timeout_synthesizes_once_witness :
    (consentRun ConsentRace.init [ConsentEvent.timerFires]).declines_synthesized = 1 :=
  ((c7_timeout_synthesizes_once [ConsentEvent.timerFires]).2.1
    (fun a ha => by cases List.mem_cons.mp ha with
      | inl h => cases h
      | inr h => cases h)
    (List.mem_cons_self _ _)).1

/-- C2 counterexample: the inbound slot is occupied by the active transfer "a", yet a new
`WaitingForUserConsent` event for transfer "b" overwrites it with a fresh session for "b" —
the router has no occupancy guard, so "set while occupied" does happen outside any
terminal-close path (indeed no code path ever clears the slot). -/
theorem c2_occupied_overwrite_counterexample :
    occupiedRouterState.receive_transfer_cache.isSome = true ∧
      (routeEvent occupiedRouterState wfcMsgB "n2").receive_transfer_cache =
        some
          { transfer_id := "b"
            notification_id := "n2"
            state := ReceiveTransferState.new wfcMsgB
            auto_decline_ctk_cancelled := false } ∧
      "b" ≠ "a" := by
  refine ⟨rfl, rfl, by decide⟩

/-- C2 (amended): a `WaitingForUserConsent` event always builds a fresh inbound session and
writes it into the single inbound slot, whether or not the slot is occupied; the router has
no occupancy guard and never clears the slot, relying on the engine to send at most one
concurrent inbound transfer. -/
theorem c2_wfc_always_overwrites (st : RouterState) (msg : ChannelMessage)
    (fid : String) (cm : MessageClient) (hc : msg.msg = Message.Client cm)
    (hs : cm.state = some RqsState.WaitingForUserConsent) :
    (routeEvent st msg fid).receive_transfer_cache =
      some
        { transfer_id := msg.id
          notification_id := fid
          state := ReceiveTransferState.new msg
          auto_decline_ctk_cancelled := false } := by
  unfold routeEvent
  rw [hc]
  simp [Message.as_client, hs]

/-- C2 witness: the amended overwrite rule applied to the occupied sample router state. -/
theorem c2_wfc_always_overwrites_witness :
    (routeEvent occupiedRouterState wfcMsgB "n2").receive_transfer_cache =
      some
        { transfer_id := wfcMsgB.id
          notification_id := "n2"
          state := ReceiveTransferState.new wfcMsgB
          auto_decline_ctk_cancelled := false } :=
  c2_wfc_always_overwrites occupiedRouterState wfcMsgB "n2"
    { kind := TransferKind.Inbound
      state := some RqsState.WaitingForUserConsent
      metadata := some sampleMetadata } rfl rfl

/-- C1 counterexample: a terminal `Cancelled` event for transfer "b", applied to the inbound
UI created for transfer "a", still closes the open progress dialog — the id guard exists
only in the `Disconnected` branch, so a terminal event carrying another id does not leave
the session's UI state unchanged as the claim asserts. -/
theorem c1_terminal_id_counterexample :
    cancelledMsgB.id ≠ sampleAcceptedUi.init_id ∧
      sampleAcceptedUi.progress_open = true ∧
      handleEventNotify sampleAcceptedUi cancelledMsgB 0 =
        some
          { sampleAcceptedUi with
            progress_can_close := true
            progress_open := false } := by
  refine ⟨by decide, rfl, rfl⟩

/-- C1 (amended): among the terminal engine events only `Disconnected` is id-guarded: with a
non-matching id it leaves the UI surface unchanged, with a matching id it closes the active
dialog (progress if consent was accepted, otherwise consent). `Cancelled` and `Finished`
close the active dialog regardless of the event id, and `Rejected` changes nothing. The
inbound slot itself is never released by a terminal event: the router applies every inbound
terminal event to an occupied slot without any id check, keeping the slot occupied for the
same transfer id, cancelling the auto-decline token and overwriting the stored event. -/
theorem c1_terminal_events_amended (ui : InboundUi) (msg : ChannelMessage) (now : ℚ)
    (cm : MessageClient) (md : TransferMetadata)
    (hc : msg.msg = Message.Client cm) (hm : cm.metadata = some md) :
    ((cm.state = some RqsState.Disconnected → msg.id ≠ ui.init_id →
        handleEventNotify ui msg now = some ui) ∧
      (cm.state = some RqsState.Disconnected → msg.id = ui.init_id →
        ∃ ui', handleEventNotify ui msg now = some ui' ∧
          ui'.progress_can_close = true ∧
          (ui.user_action = some UserAction.ConsentAccept → ui'.progress_open = false) ∧
          (ui.user_action ≠ some UserAction.ConsentAccept → ui'.consent_open = false)) ∧
      (cm.state = some RqsState.Rejected → handleEventNotify ui msg now = some ui) ∧
      ((cm.state = some RqsState.Cancelled ∨ cm.state = some RqsState.Finished) →
        ∀ ui', handleEventNotify ui msg now = some ui' →
          ui'.progress_can_close = true ∧
          (ui.user_action = some UserAction.ConsentAccept → ui'.progress_open = false) ∧
          (ui.user_action ≠ some UserAction.ConsentAccept → ui'.consent_open = false)) ∧
      (∀ (st : RouterState) (cached : ReceiveTransferCache) (fid : String) (ts : RqsState),
        cm.state = some ts →
        (ts = RqsState.Disconnected ∨ ts = RqsState.Rejected ∨ ts = RqsState.Cancelled ∨
          ts = RqsState.Finished) →
        cm.kind = TransferKind.Inbound →
        st.receive_transfer_cache = some cached →
        (routeEvent st msg fid).receive_transfer_cache =
          some
            { cached with
              auto_decline_ctk_cancelled := true
              state := { cached.state with event := some msg } })) := by
  refine ⟨?_, ?_, ?_, ?_, ?_⟩
  · intro hs hid
    unfold handleEventNotify
    rw [hc]
    simp only [Message.as_client, hm, hs, Option.getD_some]
    rw [if_neg hid]
  · intro hs hid
    unfold handleEventNotify
    rw [hc]
    simp only [Message.as_client, hm, hs, Option.getD_some]
    rw [if_pos hid]
    by_cases hua : ui.user_action = some UserAction.ConsentAccept
    · rw [if_pos hua]
      exact ⟨_, rfl, rfl, fun _ => rfl, fun hne => absurd hua hne⟩
    · rw [if_neg hua]
      exact ⟨_, rfl, rfl, fun heq => absurd heq hua, fun _ => rfl⟩
  · intro hs
    unfold handleEventNotify
    rw [hc]
    simp only [Message.as_client, hm, hs, Option.getD_some]
  · rintro (hs | hs) ui' hres
    · unfold handleEventNotify at hres
      rw [hc] at hres
      simp only [Message.as_client, hm, hs, Option.getD_some] at hres
      by_cases hua : ui.user_action = some UserAction.ConsentAccept
      · rw [if_pos hua] at hres
        split at hres <;>
          (rw [Option.some_inj] at hres
           subst hres
           exact ⟨rfl, fun _ => rfl, fun hne => absurd hua hne⟩)
      · rw [if_neg hua] at hres
        split at hres <;>
          (rw [Option.some_inj] at hres
           subst hres
           exact ⟨rfl, fun heq => absurd heq hua, fun _ => rfl⟩)
    · unfold handleEventNotify at hres
      rw [hc] at hres
      simp only [Message.as_client, hm, hs, Option.getD_some] at hres
      by_cases hua : ui.user_action = some UserAction.ConsentAccept
      · rw [if_pos hua] at hres
        split at hres
        · rw [Option.some_inj] at hres
          subst hres
          exact ⟨rfl, fun _ => rfl, fun hne => absurd hua hne⟩
        · split at hres
          · cases hres
          · rw [Option.some_inj] at hres
            subst hres
            exact ⟨rfl, fun _ => rfl, fun hne => absurd hua hne⟩
      · rw [if_neg hua] at hres
        split at hres
        · rw [Option.some_inj] at hres
          subst hres
          exact ⟨rfl, fun heq => absurd heq hua, fun _ => rfl⟩
        · split at hres
          · cases hres
          · rw [Option.some_inj] at hres
            subst hres
            exact ⟨rfl, fun heq => absurd heq hua, fun _ => rfl⟩
  · intro st cached fid ts hs hterm hkind hocc
    unfold routeEvent
    rw [hc]
    simp only [Message.as_client]
    rcases hterm with h | h | h | h <;>
      (subst h
       simp only [hs, Option.getD_some, hkind, hocc])

/-- C1 witness: the amended rule applied to the sample UI, the mismatched `Cancelled` event
and the concrete handler result; the progress dialog is made closable (and closed) despite
the id mismatch. -/
theorem c1_terminal_events_amended_witness :
    ({ sampleAcceptedUi with
        progress_can_close := true
        progress_open := false } : InboundUi).progress_can_close = true :=
  ((c1_terminal_events_amended sampleAcceptedUi cancelledMsgB 0
      { kind := TransferKind.Inbound
        state := some RqsState.Cancelled
        metadata := some sampleMetadata } sampleMetadata rfl rfl).2.2.2.1
    (Or.inl rfl)
    { sampleAcceptedUi with
      progress_can_close := true
      progress_open := false }
    rfl).1

end Packet
